import Mathlib

/-!
Formal model of `src/app/static/resources/js/main_page.js`.

The script registers a change handler on the file input `#upload-file-input`.
The handler resets the outcome text element `#outcome-text`, validates the
selected file (presence, extension against `ACCEPTED_FILE_TYPES`, size against
`MAX_AUDIO_FILE_SIZE["Value"]`), and on success issues one `$.ajax` POST to
`/api/upload-file` whose only registered continuation is a `.done` callback
that parses the body as JSON and either shows an error message or shows a
success message and navigates to the reply's url.

We embed the handler as a function from its inputs to a trace of primitive
observable actions (DOM text/class mutations, the network request, the
navigation), together with a small-step interpretation of those actions on
the state of the outcome display element.
-/

namespace MainPage

/-- A selected file as the DOM exposes it to this script: `files[0].name`
and `files[0].size` (byte count). -/
structure JsFile where
  name : String
  size : Nat
deriving DecidableEq

/-- The `MAX_AUDIO_FILE_SIZE` configuration object, with fields
`"Value"` (byte limit) and `"Name"` (human-readable label). -/
structure MaxFileSize where
  Value : Nat
  Name : String
deriving DecidableEq

/-- Everything the change handler reads: `uploadFileInput.val()`, the selected
file `uploadFileInput[0].files[0]`, and the page-load constants
`ACCEPTED_FILE_TYPES` and `MAX_AUDIO_FILE_SIZE`. -/
structure Env where
  inputVal : String
  file : JsFile
  acceptedFileTypes : List String
  maxAudioFileSize : MaxFileSize
deriving DecidableEq

/-- JavaScript `String.prototype.split` with a one-character separator, on the
character list of the string: `"".split(".") = [""]`, `"a.".split(".") =
["a", ""]`, `"a.b".split(".") = ["a", "b"]`. -/
def jsSplit (sep : Char) : List Char → List (List Char)
  | [] => [[]]
  | c :: rest =>
    match jsSplit sep rest with
    | [] => [[c]]
    | h :: t => if c = sep then [] :: h :: t else (c :: h) :: t

/-- JavaScript `String.prototype.toUpperCase` (basic Latin, which is what
`Char.toUpper` implements). -/
def jsToUpperCase (s : String) : String :=
  ⟨s.data.map Char.toUpper⟩

/-- `name.split(".").pop()`: the last segment of the filename after splitting
on `'.'` (the whole name when it has no dot). -/
def jsRawExtension (name : String) : String :=
  ⟨(jsSplit '.' name.data).getLastD []⟩

/-- `name.split(".").pop().toUpperCase()`: the value the script compares
against `ACCEPTED_FILE_TYPES`. -/
def extCheckValue (name : String) : String :=
  jsToUpperCase (jsRawExtension name)

/-- The `#outcome-text` element: its text content and its CSS class list. -/
structure Display where
  text : String
  classes : List String
deriving DecidableEq

/-- jQuery `.text(s)`. -/
def Display.setText (d : Display) (s : String) : Display :=
  { d with text := s }

/-- jQuery `.addClass(c)`: appends the class unless it is already present. -/
def Display.addClass (d : Display) (c : String) : Display :=
  if c ∈ d.classes then d else { d with classes := d.classes ++ [c] }

/-- jQuery `.removeClass(c)`: removes every occurrence of the class. -/
def Display.removeClass (d : Display) (c : String) : Display :=
  { d with classes := d.classes.filter (fun x => x != c) }

/-- The primitive observable effects of the script, in execution order. -/
inductive Action where
  | setText (s : String)
  | addClass (c : String)
  | removeClass (c : String)
  | ajaxPost (url : String) (method : String) (fields : List (String × JsFile))
  | navigate (u : Option String)
deriving DecidableEq

/-- Effect of one action on the outcome display (the network request and the
navigation do not change the display). -/
def stepDisplay (d : Display) : Action → Display
  | .setText s => d.setText s
  | .addClass c => d.addClass c
  | .removeClass c => d.removeClass c
  | .ajaxPost _ _ _ => d
  | .navigate _ => d

/-- Run a trace of actions over the display. -/
def runTrace (d : Display) (tr : List Action) : Display :=
  tr.foldl stepDisplay d

/-- JavaScript template-literal interpolation of an array of strings:
its elements joined by `","` (per `Array.prototype.toString`). -/
def jsArrayToString (l : List String) : String :=
  String.intercalate "," l

/-- The literal message of the no-file branch. -/
def noFileMsg : String := "You must select a file."

/-- The message of the bad-extension branch, naming the accepted types. -/
def badTypeMsg (accepted : List String) : String :=
  "File uploaded not of accepted file type. Accepted: " ++
    jsArrayToString accepted ++ "."

/-- The message of the oversized-file branch, naming the display label of
the limit. -/
def tooBigMsg (limitName : String) : String :=
  "File is too big; please select a file that is smaller than " ++
    limitName ++ "."

/-- The three statements at the top of the handler: clear the text, remove
the `error-text` class, remove the `success-text` class. -/
def resetActions : List Action :=
  [.setText "", .removeClass "error-text", .removeClass "success-text"]

/-- The change handler, translated statement by statement from the source:
reset, then the three guarded early returns, then the upload. The request is
a POST to `/api/upload-file` whose `FormData` body holds the selected file
under the single field `"file"` (`processData`/`contentType` disabled, i.e.
the multipart body is sent unprocessed). -/
def changeTrace (env : Env) : List Action :=
  resetActions ++
    (if env.inputVal = "" then
      [.setText noFileMsg, .addClass "error-text"]
    else if extCheckValue env.file.name ∉ env.acceptedFileTypes then
      [.setText (badTypeMsg env.acceptedFileTypes), .addClass "error-text"]
    else if env.maxAudioFileSize.Value < env.file.size then
      [.setText (tooBigMsg env.maxAudioFileSize.Name), .addClass "error-text"]
    else
      [.setText "", .ajaxPost "/api/upload-file" "POST" [("file", env.file)]])

/-- The reply body once `JSON.parse` succeeded: the script reads
`data["outcome"]`, `data["msg"]` and — on the success path — `data["url"]`,
which the reply may lack (`none`). -/
structure UploadResponse where
  outcome : String
  msg : String
  url : Option String
deriving DecidableEq

/-- The `.done` callback after a successful `JSON.parse`: on
`outcome === "error"` show the message as an error; otherwise show it as a
success and assign `window.location.href = data["url"]`. -/
def doneTrace (r : UploadResponse) : List Action :=
  if r.outcome = "error" then
    [.setText r.msg, .addClass "error-text"]
  else
    [.setText r.msg, .addClass "success-text", .navigate r.url]

/-- How the `$.ajax` call ends, as seen by this script: a transport-level
failure (network error or non-2xx status — no fail callback is registered,
so nothing runs), or a delivered body that either is not valid JSON (`none`:
`JSON.parse` throws on the first line of the callback, before any display
update) or parses into an `UploadResponse`. -/
inductive AjaxOutcome where
  | transportFailure
  | reply (parsed : Option UploadResponse)

/-- The actions the script performs in reaction to how the ajax call ends.
Only a `.done` continuation is registered in the source. -/
def handleAjaxOutcome : AjaxOutcome → List Action
  | .transportFailure => []
  | .reply none => []
  | .reply (some r) => doneTrace r

/-- All three validation checks of the handler pass: a file is selected, the
uppercased extension is a member of `ACCEPTED_FILE_TYPES`, and the size is at
most `MAX_AUDIO_FILE_SIZE["Value"]`. -/
def passesValidation (env : Env) : Prop :=
  env.inputVal ≠ "" ∧
    extCheckValue env.file.name ∈ env.acceptedFileTypes ∧
    env.file.size ≤ env.maxAudioFileSize.Value

instance (env : Env) : Decidable (passesValidation env) := by
  unfold passesValidation
  infer_instance

/-- One full invocation: the handler body, followed — exactly when a request
was issued — by the reaction to the ajax outcome. -/
def uploadFlow (env : Env) (res : AjaxOutcome) : List Action :=
  changeTrace env ++ (if passesValidation env then handleAjaxOutcome res else [])

/-- The network requests contained in a trace. -/
def requestsOf (tr : List Action) : List Action :=
  tr.filter fun a =>
    match a with
    | .ajaxPost _ _ _ => true
    | _ => false

/-- The navigations contained in a trace. -/
def navigationsOf (tr : List Action) : List Action :=
  tr.filter fun a =>
    match a with
    | .navigate _ => true
    | _ => false

/-- The display is in the error state: `error-text` present,
`success-text` absent. -/
def Display.errorState (d : Display) : Prop :=
  "error-text" ∈ d.classes ∧ "success-text" ∉ d.classes

/-- The display is in the success state: `success-text` present,
`error-text` absent. -/
def Display.successState (d : Display) : Prop :=
  "success-text" ∈ d.classes ∧ "error-text" ∉ d.classes

/-- The display carries both style classes at once (the state the invariant
rules out). -/
def hasBothClasses (d : Display) : Prop :=
  "error-text" ∈ d.classes ∧ "success-text" ∈ d.classes

/-! Helper lemmas: branch characterizations of the handler trace. -/

theorem changeTrace_noFile {env : Env} (h : env.inputVal = "") :
    changeTrace env = resetActions ++ [.setText noFileMsg, .addClass "error-text"] := by
  simp [changeTrace, h]

theorem changeTrace_badType {env : Env} (h1 : env.inputVal ≠ "")
    (h2 : extCheckValue env.file.name ∉ env.acceptedFileTypes) :
    changeTrace env =
      resetActions ++
        [.setText (badTypeMsg env.acceptedFileTypes), .addClass "error-text"] := by
  simp [changeTrace, h1, h2]

theorem changeTrace_tooBig {env : Env} (h1 : env.inputVal ≠ "")
    (h2 : extCheckValue env.file.name ∈ env.acceptedFileTypes)
    (h3 : env.maxAudioFileSize.Value < env.file.size) :
    changeTrace env =
      resetActions ++
        [.setText (tooBigMsg env.maxAudioFileSize.Name), .addClass "error-text"] := by
  simp [changeTrace, h1, h2, h3]

theorem changeTrace_valid {env : Env} (h1 : env.inputVal ≠ "")
    (h2 : extCheckValue env.file.name ∈ env.acceptedFileTypes)
    (h3 : env.file.size ≤ env.maxAudioFileSize.Value) :
    changeTrace env =
      resetActions ++
        [.setText "", .ajaxPost "/api/upload-file" "POST" [("file", env.file)]] := by
  simp [changeTrace, h1, h2, Nat.not_lt.mpr h3]

/-! Helper lemmas: running traces over the display. -/

theorem runTrace_append (d : Display) (tr1 tr2 : List Action) :
    runTrace d (tr1 ++ tr2) = runTrace (runTrace d tr1) tr2 :=
  List.foldl_append stepDisplay d tr1 tr2

/-- The class list left by the reset statements. -/
def resetClasses (cs : List String) : List String :=
  (cs.filter (fun x => x != "error-text")).filter (fun x => x != "success-text")

theorem runTrace_reset (d : Display) :
    runTrace d resetActions = ⟨"", resetClasses d.classes⟩ := by
  simp [runTrace, resetActions, stepDisplay, Display.setText, Display.removeClass,
    resetClasses]

theorem errorText_not_mem_resetClasses (cs : List String) :
    "error-text" ∉ resetClasses cs := by
  simp [resetClasses, List.mem_filter]

theorem successText_not_mem_resetClasses (cs : List String) :
    "success-text" ∉ resetClasses cs := by
  simp [resetClasses, List.mem_filter]

theorem runTrace_reset_error (d : Display) (m : String) :
    runTrace d (resetActions ++ [.setText m, .addClass "error-text"]) =
      ⟨m, resetClasses d.classes ++ ["error-text"]⟩ := by
  rw [runTrace_append, runTrace_reset]
  simp [runTrace, stepDisplay, Display.setText, Display.addClass,
    errorText_not_mem_resetClasses]

theorem errorState_reset_error (d : Display) (m : String) :
    (runTrace d (resetActions ++ [.setText m, .addClass "error-text"])).errorState := by
  rw [runTrace_reset_error]
  refine ⟨by simp, ?_⟩
  intro h
  rcases List.mem_append.mp h with h | h
  · exact successText_not_mem_resetClasses d.classes h
  · simp at h

theorem runTrace_reset_post (d : Display) (u m : String)
    (fs : List (String × JsFile)) :
    runTrace d (resetActions ++ [.setText "", .ajaxPost u m fs]) =
      ⟨"", resetClasses d.classes⟩ := by
  rw [runTrace_append, runTrace_reset]
  simp [runTrace, stepDisplay, Display.setText]

/-! Helper lemmas: uppercasing and splitting. -/

theorem char_toNat_ofNat_of_lt {n : Nat} (h : n < 55296) :
    (Char.ofNat n).toNat = n := by
  unfold Char.ofNat
  rw [dif_pos (Or.inl h)]
  rfl

theorem char_toUpper_idem (c : Char) : c.toUpper.toUpper = c.toUpper := by
  unfold Char.toUpper
  by_cases h : c.toNat ≥ 97 ∧ c.toNat ≤ 122
  · rw [if_pos h]
    have ht : (Char.ofNat (c.toNat - 32)).toNat = c.toNat - 32 :=
      char_toNat_ofNat_of_lt (by omega)
    rw [if_neg]
    rw [ht]
    omega
  · rw [if_neg h, if_neg h]

theorem jsToUpperCase_idem (s : String) :
    jsToUpperCase (jsToUpperCase s) = jsToUpperCase s := by
  unfold jsToUpperCase
  simp only [List.map_map]
  refine congrArg String.mk (List.map_congr_left ?_)
  intro c _
  exact char_toUpper_idem c

theorem jsSplit_of_not_mem {sep : Char} {l : List Char} (h : sep ∉ l) :
    jsSplit sep l = [l] := by
  induction l with
  | nil => rfl
  | cons c rest ih =>
    have hc : c ≠ sep := fun hc => h (hc ▸ List.mem_cons_self c rest)
    have hr : sep ∉ rest := fun hr => h (List.mem_cons_of_mem c hr)
    rw [jsSplit, ih hr]
    simp [hc]

theorem jsRawExtension_of_no_dot {name : String} (h : '.' ∉ name.data) :
    jsRawExtension name = name := by
  unfold jsRawExtension
  rw [jsSplit_of_not_mem h]
  rfl

/-! Helper lemmas: the mutual-exclusion invariant along every prefix of a
trace. -/

/-- Every prefix of the trace, run from `d`, leaves the display without the
two style classes simultaneously. -/
def OkAfter (d : Display) (tr : List Action) : Prop :=
  ∀ n : Nat, ¬ hasBothClasses (runTrace d (tr.take n))

theorem okAfter_nil {d : Display} (h : ¬ hasBothClasses d) : OkAfter d [] := by
  intro n
  simpa [runTrace] using h

theorem okAfter_cons {d : Display} {a : Action} {tr : List Action}
    (h0 : ¬ hasBothClasses d) (h : OkAfter (stepDisplay d a) tr) :
    OkAfter d (a :: tr) := by
  intro n
  cases n with
  | zero => simpa [runTrace] using h0
  | succ n =>
    rw [List.take_succ_cons]
    simpa [runTrace] using h n

theorem classes_setText (d : Display) (s : String) :
    (d.setText s).classes = d.classes := rfl

theorem not_mem_removeClass_self (d : Display) (c : String) :
    c ∉ (d.removeClass c).classes := by
  simp [Display.removeClass, List.mem_filter]

theorem not_mem_removeClass_of {d : Display} {x : String} (c : String)
    (h : x ∉ d.classes) : x ∉ (d.removeClass c).classes := by
  simp only [Display.removeClass, List.mem_filter]
  intro hc
  exact absurd hc.1 h

theorem not_mem_addClass_of {d : Display} {x : String} {c : String}
    (hxc : x ≠ c) (h : x ∉ d.classes) : x ∉ (d.addClass c).classes := by
  unfold Display.addClass
  split
  · exact h
  · simp only [List.mem_append, List.mem_singleton]
    rintro (hx | hx)
    · exact h hx
    · exact hxc hx

theorem not_hasBoth_of_no_error {d : Display}
    (h : "error-text" ∉ d.classes) : ¬ hasBothClasses d :=
  fun hb => h hb.1

theorem not_hasBoth_of_no_success {d : Display}
    (h : "success-text" ∉ d.classes) : ¬ hasBothClasses d :=
  fun hb => h hb.2

/-- After the reset statements, neither style class is present, whatever the
initial display was. -/
theorem reset_state_clean (d : Display) :
    "error-text" ∉ (runTrace d resetActions).classes ∧
      "success-text" ∉ (runTrace d resetActions).classes := by
  rw [runTrace_reset]
  exact ⟨errorText_not_mem_resetClasses d.classes,
    successText_not_mem_resetClasses d.classes⟩

/-- Along the reset statements the two classes never coexist, provided they
did not coexist at the start. -/
theorem okAfter_reset_steps (d : Display) (hd : ¬ hasBothClasses d)
    (tr : List Action)
    (h : OkAfter ((d.setText "").removeClass "error-text" |>.removeClass
      "success-text") tr) :
    OkAfter d (resetActions ++ tr) := by
  refine okAfter_cons hd (okAfter_cons ?_ (okAfter_cons ?_ h))
  · simpa [hasBothClasses, stepDisplay, classes_setText] using hd
  · show ¬ hasBothClasses ((d.setText "").removeClass "error-text")
    refine not_hasBoth_of_no_error ?_
    exact not_mem_removeClass_self _ _

theorem okAfter_error_tail {d : Display} (m : String)
    (hS : "success-text" ∉ d.classes) :
    OkAfter d [.setText m, .addClass "error-text"] := by
  refine okAfter_cons (not_hasBoth_of_no_success hS)
    (okAfter_cons ?_ (okAfter_nil ?_))
  · show ¬ hasBothClasses (d.setText m)
    refine not_hasBoth_of_no_success ?_
    rw [classes_setText]
    exact hS
  · show ¬ hasBothClasses ((d.setText m).addClass "error-text")
    refine not_hasBoth_of_no_success ?_
    refine not_mem_addClass_of (by decide) ?_
    rw [classes_setText]
    exact hS

theorem okAfter_success_tail {d : Display} (m : String) (u : Option String)
    (hE : "error-text" ∉ d.classes) :
    OkAfter d [.setText m, .addClass "success-text", .navigate u] := by
  have h5 : "error-text" ∉ ((d.setText m).addClass "success-text").classes := by
    refine not_mem_addClass_of (by decide) ?_
    rw [classes_setText]
    exact hE
  refine okAfter_cons (not_hasBoth_of_no_error hE)
    (okAfter_cons ?_ (okAfter_cons ?_ (okAfter_nil ?_)))
  · show ¬ hasBothClasses (d.setText m)
    refine not_hasBoth_of_no_error ?_
    rw [classes_setText]
    exact hE
  · show ¬ hasBothClasses ((d.setText m).addClass "success-text")
    exact not_hasBoth_of_no_error h5
  · show ¬ hasBothClasses ((d.setText m).addClass "success-text")
    exact not_hasBoth_of_no_error h5

theorem okAfter_done {d : Display} (res : AjaxOutcome)
    (hE : "error-text" ∉ d.classes) (hS : "success-text" ∉ d.classes) :
    OkAfter d (handleAjaxOutcome res) := by
  cases res with
  | transportFailure => exact okAfter_nil (not_hasBoth_of_no_error hE)
  | reply parsed =>
    cases parsed with
    | none => exact okAfter_nil (not_hasBoth_of_no_error hE)
    | some r =>
      show OkAfter d (doneTrace r)
      unfold doneTrace
      split
      · exact okAfter_error_tail r.msg hS
      · exact okAfter_success_tail r.msg r.url hE

theorem okAfter_post_done {d : Display} (res : AjaxOutcome)
    (fs : List (String × JsFile))
    (hE : "error-text" ∉ d.classes) (hS : "success-text" ∉ d.classes) :
    OkAfter d ([.setText "", .ajaxPost "/api/upload-file" "POST" fs] ++
      handleAjaxOutcome res) := by
  have hE4 : "error-text" ∉ (d.setText "").classes := by
    rw [classes_setText]; exact hE
  have hS4 : "success-text" ∉ (d.setText "").classes := by
    rw [classes_setText]; exact hS
  refine okAfter_cons (not_hasBoth_of_no_error hE) (okAfter_cons ?_ ?_)
  · show ¬ hasBothClasses (d.setText "")
    exact not_hasBoth_of_no_error hE4
  · show OkAfter (d.setText "") (handleAjaxOutcome res)
    exact okAfter_done res hE4 hS4

theorem runTrace_error_tail {d : Display} (m : String)
    (hE : "error-text" ∉ d.classes) :
    runTrace d [.setText m, .addClass "error-text"] =
      ⟨m, d.classes ++ ["error-text"]⟩ := by
  simp [runTrace, stepDisplay, Display.setText, Display.addClass, hE]

theorem runTrace_success_tail {d : Display} (m : String) (u : Option String)
    (hS : "success-text" ∉ d.classes) :
    runTrace d [.setText m, .addClass "success-text", .navigate u] =
      ⟨m, d.classes ++ ["success-text"]⟩ := by
  simp [runTrace, stepDisplay, Display.setText, Display.addClass, hS]

/-! The claims. -/

/-- C1: the handler issues exactly one POST request to `/api/upload-file`,
whose multipart body holds the selected file under the single field `"file"`,
precisely when the selected file passes all three validation checks (a file is
selected, its uppercased extension is a member of `ACCEPTED_FILE_TYPES`, its
size is at most `MAX_AUDIO_FILE_SIZE["Value"]`); otherwise it issues no
request at all. -/
theorem upload_request_iff_validation (env : Env) :
    requestsOf (changeTrace env) =
      (if passesValidation env then
        [Action.ajaxPost "/api/upload-file" "POST" [("file", env.file)]]
      else []) := by
  by_cases h1 : env.inputVal = ""
  · rw [changeTrace_noFile h1, if_neg (fun hp => hp.1 h1)]
    rfl
  · by_cases h2 : extCheckValue env.file.name ∈ env.acceptedFileTypes
    · by_cases h3 : env.file.size ≤ env.maxAudioFileSize.Value
      · rw [changeTrace_valid h1 h2 h3, if_pos ⟨h1, h2, h3⟩]
        rfl
      · rw [changeTrace_tooBig h1 h2 (Nat.not_le.mp h3),
          if_neg (fun hp => h3 hp.2.2)]
        rfl
    · rw [changeTrace_badType h1 h2, if_neg (fun hp => h2 hp.2.1)]
      rfl

/-- C2: when no file is selected (`val()` is empty), the handler emits exactly
the reset followed by the fixed error message and the error class — a trace
that is independent of the selected file and of both configuration constants,
so the handler aborts before the extension and size checks — the display ends
in the error state with the exact literal text `"You must select a file."`,
and no network request is issued. -/
theorem no_file_error_and_abort (env : Env) (h : env.inputVal = "") :
    changeTrace env =
      resetActions ++ [.setText noFileMsg, .addClass "error-text"] ∧
    (∀ d : Display,
      (runTrace d (changeTrace env)).text = "You must select a file." ∧
      (runTrace d (changeTrace env)).errorState) ∧
    requestsOf (changeTrace env) = [] := by
  have hc := changeTrace_noFile h
  refine ⟨hc, ?_, ?_⟩
  · intro d
    rw [hc]
    exact ⟨by rw [runTrace_reset_error]; rfl, errorState_reset_error d noFileMsg⟩
  · rw [hc]
    rfl

/-- Witness for C2 at a concrete environment and a display still carrying the
success class from an earlier pass. -/
theorem no_file_error_and_abort_witness :
    (⟨"", ⟨"a.wav", 5⟩, ["WAV"], ⟨10, "10 B"⟩⟩ : Env).inputVal = "" ∧
    (runTrace ⟨"old", ["success-text"]⟩
      (changeTrace ⟨"", ⟨"a.wav", 5⟩, ["WAV"], ⟨10, "10 B"⟩⟩)).text =
        "You must select a file." ∧
    (runTrace ⟨"old", ["success-text"]⟩
      (changeTrace ⟨"", ⟨"a.wav", 5⟩, ["WAV"], ⟨10, "10 B"⟩⟩)).errorState ∧
    requestsOf (changeTrace ⟨"", ⟨"a.wav", 5⟩, ["WAV"], ⟨10, "10 B"⟩⟩) = [] := by
  have h := no_file_error_and_abort ⟨"", ⟨"a.wav", 5⟩, ["WAV"], ⟨10, "10 B"⟩⟩ rfl
  exact ⟨rfl, (h.2.1 ⟨"old", ["success-text"]⟩).1,
    (h.2.1 ⟨"old", ["success-text"]⟩).2, h.2.2⟩

/-- C3 counterexample: with allow-list `["wav"]` the selected file `a.wav` —
whose extension is literally a listed entry, hence certainly "a casing of a
listed extension" — is rejected by the extension check (error state, no
request), because the code compares the uppercased extension `"WAV"`
case-sensitively against the list. This refutes "for any allow-list and any
casing of a listed extension in the filename, the file passes this check". -/
theorem extension_check_case_cex :
    requestsOf
      (changeTrace ⟨"a.wav", ⟨"a.wav", 0⟩, ["wav"], ⟨1000, "1 MB"⟩⟩) = [] ∧
    (runTrace ⟨"", []⟩
      (changeTrace ⟨"a.wav", ⟨"a.wav", 0⟩, ["wav"], ⟨1000, "1 MB"⟩⟩)).text =
        badTypeMsg ["wav"] ∧
    (runTrace ⟨"", []⟩
      (changeTrace ⟨"a.wav", ⟨"a.wav", 0⟩, ["wav"], ⟨1000, "1 MB"⟩⟩)).errorState :=
  ⟨rfl, rfl, by decide, by decide⟩

/-- C3 (amended): for every selected file whose extension is, compared
case-insensitively, not a member of `ACCEPTED_FILE_TYPES`, the display ends
in the error state with the message listing the accepted types and no network
call occurs; and — amended — when the allow-list's entries are uppercase, a
file passes the extension check exactly when its extension is,
case-insensitively, a listed one (so any casing of a listed extension
passes). -/
theorem extension_check_amended (env : Env) (hval : env.inputVal ≠ "") :
    ((∀ a ∈ env.acceptedFileTypes,
        jsToUpperCase a ≠ jsToUpperCase (jsRawExtension env.file.name)) →
      (∀ d : Display,
        (runTrace d (changeTrace env)).text = badTypeMsg env.acceptedFileTypes ∧
        (runTrace d (changeTrace env)).errorState) ∧
      requestsOf (changeTrace env) = []) ∧
    ((∀ a ∈ env.acceptedFileTypes, jsToUpperCase a = a) →
      (extCheckValue env.file.name ∈ env.acceptedFileTypes ↔
        ∃ a ∈ env.acceptedFileTypes,
          jsToUpperCase (jsRawExtension env.file.name) = jsToUpperCase a)) := by
  constructor
  · intro hci
    have h2 : extCheckValue env.file.name ∉ env.acceptedFileTypes := by
      intro hmem
      exact hci _ hmem (jsToUpperCase_idem (jsRawExtension env.file.name))
    rw [changeTrace_badType hval h2]
    refine ⟨fun d => ⟨by rw [runTrace_reset_error], errorState_reset_error d _⟩, rfl⟩
  · intro hupper
    constructor
    · intro hmem
      exact ⟨extCheckValue env.file.name, hmem,
        (jsToUpperCase_idem (jsRawExtension env.file.name)).symm⟩
    · rintro ⟨a, ha, hEq⟩
      have hx : extCheckValue env.file.name = a := by
        unfold extCheckValue
        rw [hEq, hupper a ha]
      rw [hx]
      exact ha

/-- Witness for C3 (amended) at allow-list `["WAV"]` and file `a.mp3`. -/
theorem extension_check_amended_witness :
    (runTrace ⟨"", []⟩
      (changeTrace ⟨"x", ⟨"a.mp3", 1⟩, ["WAV"], ⟨10, "10 B"⟩⟩)).text =
        badTypeMsg ["WAV"] ∧
    (runTrace ⟨"", []⟩
      (changeTrace ⟨"x", ⟨"a.mp3", 1⟩, ["WAV"], ⟨10, "10 B"⟩⟩)).errorState ∧
    requestsOf (changeTrace ⟨"x", ⟨"a.mp3", 1⟩, ["WAV"], ⟨10, "10 B"⟩⟩) = [] ∧
    (extCheckValue "a.mp3" ∈ (["WAV"] : List String) ↔
      ∃ a ∈ (["WAV"] : List String),
        jsToUpperCase (jsRawExtension "a.mp3") = jsToUpperCase a) := by
  have h := extension_check_amended ⟨"x", ⟨"a.mp3", 1⟩, ["WAV"], ⟨10, "10 B"⟩⟩
    (by decide)
  have h1 := h.1 (by decide)
  exact ⟨(h1.1 ⟨"", []⟩).1, (h1.1 ⟨"", []⟩).2, h1.2, h.2 (by decide)⟩

/-- C4: for a selected file with accepted extension, the request is issued
exactly when the byte size is at most `MAX_AUDIO_FILE_SIZE["Value"]` — so a
file whose size equals the limit passes the size check — and when the size
strictly exceeds the limit the display ends in the error state with the
message naming the human-readable limit `MAX_AUDIO_FILE_SIZE["Name"]` and no
network call occurs. -/
theorem size_check_strict (env : Env) (hval : env.inputVal ≠ "")
    (hext : extCheckValue env.file.name ∈ env.acceptedFileTypes) :
    (requestsOf (changeTrace env) =
        [Action.ajaxPost "/api/upload-file" "POST" [("file", env.file)]] ↔
      env.file.size ≤ env.maxAudioFileSize.Value) ∧
    (env.maxAudioFileSize.Value < env.file.size →
      (∀ d : Display,
        (runTrace d (changeTrace env)).text =
          tooBigMsg env.maxAudioFileSize.Name ∧
        (runTrace d (changeTrace env)).errorState) ∧
      requestsOf (changeTrace env) = []) := by
  constructor
  · by_cases h3 : env.file.size ≤ env.maxAudioFileSize.Value
    · rw [changeTrace_valid hval hext h3]
      exact iff_of_true rfl h3
    · rw [changeTrace_tooBig hval hext (Nat.not_le.mp h3)]
      refine iff_of_false ?_ h3
      intro hreq
      have hnil : requestsOf
          (resetActions ++
            [.setText (tooBigMsg env.maxAudioFileSize.Name),
              .addClass "error-text"]) = [] := rfl
      rw [hnil] at hreq
      exact List.noConfusion hreq
  · intro h3
    rw [changeTrace_tooBig hval hext h3]
    exact ⟨fun d => ⟨by rw [runTrace_reset_error], errorState_reset_error d _⟩, rfl⟩

/-- Witness for C4 at a file of 11 bytes against a limit of 10 bytes. -/
theorem size_check_strict_witness :
    ((requestsOf (changeTrace ⟨"x", ⟨"a.wav", 11⟩, ["WAV"], ⟨10, "10 B"⟩⟩) =
        [Action.ajaxPost "/api/upload-file" "POST" [("file", ⟨"a.wav", 11⟩)]] ↔
      (11 : Nat) ≤ 10) ∧
    (runTrace ⟨"", []⟩
      (changeTrace ⟨"x", ⟨"a.wav", 11⟩, ["WAV"], ⟨10, "10 B"⟩⟩)).text =
        tooBigMsg "10 B" ∧
    (runTrace ⟨"", []⟩
      (changeTrace ⟨"x", ⟨"a.wav", 11⟩, ["WAV"], ⟨10, "10 B"⟩⟩)).errorState ∧
    requestsOf (changeTrace ⟨"x", ⟨"a.wav", 11⟩, ["WAV"], ⟨10, "10 B"⟩⟩) = []) := by
  have h := size_check_strict ⟨"x", ⟨"a.wav", 11⟩, ["WAV"], ⟨10, "10 B"⟩⟩
    (by decide) (by decide)
  have h2 := h.2 (by decide)
  exact ⟨h.1, (h2.1 ⟨"", []⟩).1, (h2.1 ⟨"", []⟩).2, h2.2⟩

/-- C5: when the upload was issued and the parsed reply has
`outcome === "error"`, the display ends in the error state showing exactly
the reply's `msg`, and the invocation performs no navigation. -/
theorem server_error_reply_display (env : Env) (r : UploadResponse)
    (d : Display) (hp : passesValidation env) (hr : r.outcome = "error") :
    (runTrace d (uploadFlow env (.reply (some r)))).text = r.msg ∧
    (runTrace d (uploadFlow env (.reply (some r)))).errorState ∧
    navigationsOf (uploadFlow env (.reply (some r))) = [] := by
  obtain ⟨h1, h2, h3⟩ := hp
  have hct := changeTrace_valid h1 h2 h3
  have hflow : uploadFlow env (.reply (some r)) =
      changeTrace env ++ [.setText r.msg, .addClass "error-text"] := by
    unfold uploadFlow
    rw [if_pos ⟨h1, h2, h3⟩]
    simp [handleAjaxOutcome, doneTrace, hr]
  have hrun : runTrace d (uploadFlow env (.reply (some r))) =
      ⟨r.msg, resetClasses d.classes ++ ["error-text"]⟩ := by
    rw [hflow, runTrace_append, hct, runTrace_reset_post,
      runTrace_error_tail r.msg (errorText_not_mem_resetClasses d.classes)]
  refine ⟨by rw [hrun], ?_, ?_⟩
  · rw [hrun]
    refine ⟨by simp, ?_⟩
    intro hmem
    rcases List.mem_append.mp hmem with hmem | hmem
    · exact successText_not_mem_resetClasses d.classes hmem
    · simp at hmem
  · rw [hflow, hct]
    rfl

/-- Witness for C5 at a concrete valid environment and error reply. -/
theorem server_error_reply_display_witness :
    (runTrace ⟨"", []⟩
      (uploadFlow ⟨"x", ⟨"a.wav", 5⟩, ["WAV"], ⟨10, "10 B"⟩⟩
        (.reply (some ⟨"error", "bad format", none⟩)))).text = "bad format" ∧
    (runTrace ⟨"", []⟩
      (uploadFlow ⟨"x", ⟨"a.wav", 5⟩, ["WAV"], ⟨10, "10 B"⟩⟩
        (.reply (some ⟨"error", "bad format", none⟩)))).errorState ∧
    navigationsOf
      (uploadFlow ⟨"x", ⟨"a.wav", 5⟩, ["WAV"], ⟨10, "10 B"⟩⟩
        (.reply (some ⟨"error", "bad format", none⟩))) = [] :=
  server_error_reply_display ⟨"x", ⟨"a.wav", 5⟩, ["WAV"], ⟨10, "10 B"⟩⟩
    ⟨"error", "bad format", none⟩ ⟨"", []⟩ (by decide) rfl

/-- C6: when the upload was issued and the parsed reply's `outcome` is any
value other than `"error"`, the display ends in the success state showing
exactly the reply's `msg`, and the invocation navigates the browser to the
reply's `url` field. -/
theorem server_success_reply_display (env : Env) (r : UploadResponse)
    (d : Display) (hp : passesValidation env) (hr : r.outcome ≠ "error") :
    (runTrace d (uploadFlow env (.reply (some r)))).text = r.msg ∧
    (runTrace d (uploadFlow env (.reply (some r)))).successState ∧
    navigationsOf (uploadFlow env (.reply (some r))) =
      [Action.navigate r.url] := by
  obtain ⟨h1, h2, h3⟩ := hp
  have hct := changeTrace_valid h1 h2 h3
  have hflow : uploadFlow env (.reply (some r)) =
      changeTrace env ++
        [.setText r.msg, .addClass "success-text", .navigate r.url] := by
    unfold uploadFlow
    rw [if_pos ⟨h1, h2, h3⟩]
    simp [handleAjaxOutcome, doneTrace, hr]
  have hrun : runTrace d (uploadFlow env (.reply (some r))) =
      ⟨r.msg, resetClasses d.classes ++ ["success-text"]⟩ := by
    rw [hflow, runTrace_append, hct, runTrace_reset_post,
      runTrace_success_tail r.msg r.url
        (successText_not_mem_resetClasses d.classes)]
  refine ⟨by rw [hrun], ?_, ?_⟩
  · rw [hrun]
    refine ⟨by simp, ?_⟩
    intro hmem
    rcases List.mem_append.mp hmem with hmem | hmem
    · exact errorText_not_mem_resetClasses d.classes hmem
    · simp at hmem
  · rw [hflow, hct]
    rfl

/-- Witness for C6 at a concrete valid environment and success reply. -/
theorem server_success_reply_display_witness :
    (runTrace ⟨"", []⟩
      (uploadFlow ⟨"x", ⟨"a.wav", 5⟩, ["WAV"], ⟨10, "10 B"⟩⟩
        (.reply (some ⟨"ok", "done", some "/next"⟩)))).text = "done" ∧
    (runTrace ⟨"", []⟩
      (uploadFlow ⟨"x", ⟨"a.wav", 5⟩, ["WAV"], ⟨10, "10 B"⟩⟩
        (.reply (some ⟨"ok", "done", some "/next"⟩)))).successState ∧
    navigationsOf
      (uploadFlow ⟨"x", ⟨"a.wav", 5⟩, ["WAV"], ⟨10, "10 B"⟩⟩
        (.reply (some ⟨"ok", "done", some "/next"⟩))) =
      [Action.navigate (some "/next")] :=
  server_success_reply_display ⟨"x", ⟨"a.wav", 5⟩, ["WAV"], ⟨10, "10 B"⟩⟩
    ⟨"ok", "done", some "/next"⟩ ⟨"", []⟩ (by decide) (by decide)

/-- C7: every invocation of the handler begins with the reset (clear text,
remove the error class, remove the success class), and — starting from any
display that does not already carry both style classes — after every prefix
of the invocation's trace (handler body plus, when a request was issued, the
reaction to the reply) the display never carries the error and the success
class simultaneously; since the reset removes both classes, no residual style
class survives from one validation pass into the outcome of the next. -/
theorem outcome_display_exclusive (env : Env) (res : AjaxOutcome)
    (d : Display) (hd : ¬ hasBothClasses d) :
    (∃ rest, changeTrace env = resetActions ++ rest) ∧
    OkAfter d (uploadFlow env res) := by
  refine ⟨⟨_, rfl⟩, ?_⟩
  by_cases h1 : env.inputVal = ""
  · have hflow : uploadFlow env res =
        resetActions ++ [.setText noFileMsg, .addClass "error-text"] := by
      unfold uploadFlow
      rw [if_neg (fun hp => hp.1 h1), List.append_nil, changeTrace_noFile h1]
    rw [hflow]
    refine okAfter_reset_steps d hd _ (okAfter_error_tail _ ?_)
    exact not_mem_removeClass_self _ _
  · by_cases h2 : extCheckValue env.file.name ∈ env.acceptedFileTypes
    · by_cases h3 : env.file.size ≤ env.maxAudioFileSize.Value
      · have hflow : uploadFlow env res =
            resetActions ++
              ([.setText "",
                .ajaxPost "/api/upload-file" "POST" [("file", env.file)]] ++
                handleAjaxOutcome res) := by
          unfold uploadFlow
          rw [if_pos ⟨h1, h2, h3⟩, changeTrace_valid h1 h2 h3,
            List.append_assoc]
        rw [hflow]
        refine okAfter_reset_steps d hd _ (okAfter_post_done res _ ?_ ?_)
        · exact not_mem_removeClass_of _ (not_mem_removeClass_self _ _)
        · exact not_mem_removeClass_self _ _
      · have hflow : uploadFlow env res =
            resetActions ++
              [.setText (tooBigMsg env.maxAudioFileSize.Name),
                .addClass "error-text"] := by
          unfold uploadFlow
          rw [if_neg (fun hp => h3 hp.2.2), List.append_nil,
            changeTrace_tooBig h1 h2 (Nat.not_le.mp h3)]
        rw [hflow]
        refine okAfter_reset_steps d hd _ (okAfter_error_tail _ ?_)
        exact not_mem_removeClass_self _ _
    · have hflow : uploadFlow env res =
          resetActions ++
            [.setText (badTypeMsg env.acceptedFileTypes),
              .addClass "error-text"] := by
        unfold uploadFlow
        rw [if_neg (fun hp => h2 hp.2.1), List.append_nil,
          changeTrace_badType h1 h2]
      rw [hflow]
      refine okAfter_reset_steps d hd _ (okAfter_error_tail _ ?_)
      exact not_mem_removeClass_self _ _

/-- Witness for C7: a full successful invocation started on a display still
carrying the error class from an earlier pass. -/
theorem outcome_display_exclusive_witness :
    (∃ rest,
      changeTrace ⟨"x", ⟨"a.wav", 5⟩, ["WAV"], ⟨10, "10 B"⟩⟩ =
        resetActions ++ rest) ∧
    OkAfter ⟨"t", ["error-text"]⟩
      (uploadFlow ⟨"x", ⟨"a.wav", 5⟩, ["WAV"], ⟨10, "10 B"⟩⟩
        (.reply (some ⟨"ok", "done", some "/next"⟩))) :=
  outcome_display_exclusive ⟨"x", ⟨"a.wav", 5⟩, ["WAV"], ⟨10, "10 B"⟩⟩
    (.reply (some ⟨"ok", "done", some "/next"⟩)) ⟨"t", ["error-text"]⟩
    (by simp [hasBothClasses])

/-- C8: when the upload was issued and the call ends in a transport-level
failure (no fail callback is registered, so no code runs) or delivers a body
that is not valid JSON (`JSON.parse` throws before any display update), the
display is left exactly in the state it held when the request was issued:
empty text and neither style class. -/
theorem unhandled_failure_leaves_display (env : Env) (res : AjaxOutcome)
    (d : Display) (hp : passesValidation env)
    (hres : res = .transportFailure ∨ res = .reply none) :
    runTrace d (uploadFlow env res) = runTrace d (changeTrace env) ∧
    (runTrace d (changeTrace env)).text = "" ∧
    "error-text" ∉ (runTrace d (changeTrace env)).classes ∧
    "success-text" ∉ (runTrace d (changeTrace env)).classes := by
  obtain ⟨h1, h2, h3⟩ := hp
  have hct := changeTrace_valid h1 h2 h3
  have hhandle : handleAjaxOutcome res = [] := by
    rcases hres with h | h <;> rw [h] <;> rfl
  have hflow : uploadFlow env res = changeTrace env := by
    unfold uploadFlow
    rw [if_pos ⟨h1, h2, h3⟩, hhandle, List.append_nil]
  have hrun : runTrace d (changeTrace env) = ⟨"", resetClasses d.classes⟩ := by
    rw [hct, runTrace_reset_post]
  refine ⟨by rw [hflow], by rw [hrun], ?_, ?_⟩
  · rw [hrun]
    exact errorText_not_mem_resetClasses d.classes
  · rw [hrun]
    exact successText_not_mem_resetClasses d.classes

/-- Witness for C8 at a concrete valid environment and a transport failure. -/
theorem unhandled_failure_leaves_display_witness :
    runTrace ⟨"", []⟩
        (uploadFlow ⟨"x", ⟨"a.wav", 5⟩, ["WAV"], ⟨10, "10 B"⟩⟩
          .transportFailure) =
      runTrace ⟨"", []⟩
        (changeTrace ⟨"x", ⟨"a.wav", 5⟩, ["WAV"], ⟨10, "10 B"⟩⟩) ∧
    (runTrace ⟨"", []⟩
      (changeTrace ⟨"x", ⟨"a.wav", 5⟩, ["WAV"], ⟨10, "10 B"⟩⟩)).text = "" ∧
    "error-text" ∉
      (runTrace ⟨"", []⟩
        (changeTrace ⟨"x", ⟨"a.wav", 5⟩, ["WAV"], ⟨10, "10 B"⟩⟩)).classes ∧
    "success-text" ∉
      (runTrace ⟨"", []⟩
        (changeTrace ⟨"x", ⟨"a.wav", 5⟩, ["WAV"], ⟨10, "10 B"⟩⟩)).classes :=
  unhandled_failure_leaves_display ⟨"x", ⟨"a.wav", 5⟩, ["WAV"], ⟨10, "10 B"⟩⟩
    .transportFailure ⟨"", []⟩ (by decide) (Or.inl rfl)

/-- C9: for a filename containing no `'.'`, `split(".").pop()` yields the
whole name, so the value the extension check compares against the allow-list
is the uppercased full filename, and the file passes the check exactly when
its uppercased full name is a member of the allow-list. -/
theorem no_dot_checks_whole_name (name : String) (h : '.' ∉ name.data) :
    extCheckValue name = jsToUpperCase name ∧
    ∀ accepted : List String,
      (extCheckValue name ∈ accepted ↔ jsToUpperCase name ∈ accepted) := by
  have hx : extCheckValue name = jsToUpperCase name := by
    unfold extCheckValue
    rw [jsRawExtension_of_no_dot h]
  exact ⟨hx, fun accepted => by rw [hx]⟩

/-- Witness for C9 at the dotless filename `"abc"`. -/
theorem no_dot_checks_whole_name_witness :
    extCheckValue "abc" = jsToUpperCase "abc" ∧
    (extCheckValue "abc" ∈ (["ABC"] : List String) ↔
      jsToUpperCase "abc" ∈ (["ABC"] : List String)) := by
  have h := no_dot_checks_whole_name "abc" (by decide)
  exact ⟨h.1, h.2 ["ABC"]⟩

/-- C10: for a parsed reply whose `outcome` is not `"error"`, the done
callback performs exactly: set the message, add the success class, then
assign `window.location.href = data["url"]` — so the navigation assignment is
performed unconditionally (also when the reply carries no url field,
`url = none`) and only after the display was set to the success state with
the message. -/
theorem success_navigation_unconditional (r : UploadResponse)
    (hr : r.outcome ≠ "error") :
    doneTrace r =
      [.setText r.msg, .addClass "success-text", .navigate r.url] ∧
    navigationsOf (doneTrace r) = [Action.navigate r.url] := by
  have hd : doneTrace r =
      [.setText r.msg, .addClass "success-text", .navigate r.url] := by
    simp [doneTrace, hr]
  exact ⟨hd, by rw [hd]; rfl⟩

/-- Witness for C10 at a success reply that lacks the url field. -/
theorem success_navigation_unconditional_witness :
    doneTrace ⟨"ok", "done", none⟩ =
      [.setText "done", .addClass "success-text", .navigate none] ∧
    navigationsOf (doneTrace ⟨"ok", "done", none⟩) =
      [Action.navigate none] :=
  success_navigation_unconditional ⟨"ok", "done", none⟩ (by decide)

end MainPage
